import Mathlib

/-!
Verification of the pensieve entity-enrichment and embedding core.

Shallow embedding of the Python sources under src/memos/:
  embedding.py - get_remote_embeddings, generate_embeddings, get_embeddings
  crud.py      - tag / metadata / plugin-status / listing / context operations

Vectors are modelled over the reals (the source uses numpy float arrays);
the relational store is modelled as explicit lists of rows with insertion
order standing for rowid order.
-/

/-- EmbeddingSettings mirrors config.py's EmbeddingSettings: only the fields
read by embedding.py's control flow are kept. -/
structure EmbeddingSettings where
  use_local : Bool
  modelName : String
  endpoint : String

/-- Outcome of the single batched HTTP POST issued by get_remote_embeddings:
either a transport-level failure (an httpx.RequestError raised while sending)
or a response with an HTTP status code and the parsed response body's
embeddings field (the remote contract of spec section 6). -/
inductive RemoteOutcome where
  | transportError : RemoteOutcome
  | response (status : Nat) (body : List (List ℝ)) : RemoteOutcome

/-- Exceptions that embedding.py can let escape. httpStatusError models
httpx.HTTPStatusError raised by response.raise_for_status(). -/
inductive EmbedErr where
  | httpStatusError : EmbedErr
deriving DecidableEq

/-- get_remote_embeddings (embedding.py lines 74-85).  The try block catches
only httpx.RequestError (transport failures) and returns []; a non-2xx
response makes raise_for_status() throw httpx.HTTPStatusError, which is a
sibling of RequestError under httpx.HTTPError and is therefore not caught:
it propagates.  The remote transport is passed in as a function from the
request's input texts to its outcome. -/
def get_remote_embeddings (remote : List String → RemoteOutcome)
    (texts : List String) : Except EmbedErr (List (List ℝ)) :=
  match remote texts with
  | RemoteOutcome.transportError => Except.ok []
  | RemoteOutcome.response status body =>
      if 200 ≤ status ∧ status ≤ 299 then Except.ok body
      else Except.error EmbedErr.httpStatusError

/-- Sum of squares of a vector: what np.linalg.norm(.., ord=2, axis=1) takes
the square root of, per row. -/
noncomputable def sumSq (v : List ℝ) : ℝ := (v.map (fun x => x * x)).sum

/-- Row-wise Euclidean norms, np.linalg.norm(embeddings, ord=2, axis=1). -/
noncomputable def l2norms (rows : List (List ℝ)) : List ℝ :=
  rows.map (fun v => Real.sqrt (sumSq v))

/-- norms[norms == 0] = 1 from generate_embeddings. -/
noncomputable def fixZeroNorms (ns : List ℝ) : List ℝ :=
  ns.map (fun n => if n = 0 then 1 else n)

/-- embeddings / norms with keepdims=True: each row divided by its norm. -/
noncomputable def divRows (rows : List (List ℝ)) (ns : List ℝ) : List (List ℝ) :=
  (rows.zip ns).map (fun p => p.1.map (fun x => x / p.2))

/-- generate_embeddings (embedding.py lines 41-58), with the external model's
encode step passed in as a function.  The lazy model/device initialisation
mutates only process-global inference state and does not affect the value
returned, so it is not part of the state modelled here.  Empty input returns
[] before the model is consulted. -/
noncomputable def generate_embeddings (encode : List String → List (List ℝ))
    (texts : List String) : List (List ℝ) :=
  if texts.isEmpty then []
  else
    let embeddings := encode texts
    divRows embeddings (fixZeroNorms (l2norms embeddings))

/-- round(float(x), 5): rounding a coordinate to 5 decimal digits. -/
noncomputable def round5 (x : ℝ) : ℝ := (round (x * 100000) : ℤ) / 100000

/-- get_embeddings (embedding.py lines 61-71): choose the local or the remote
path by configuration, then round every coordinate of every vector to 5
decimal places.  A propagating exception from the remote path propagates
here as well. -/
noncomputable def get_embeddings (cfg : EmbeddingSettings)
    (encode : List String → List (List ℝ)) (remote : List String → RemoteOutcome)
    (texts : List String) : Except EmbedErr (List (List ℝ)) :=
  (if cfg.use_local then Except.ok (generate_embeddings encode texts)
   else get_remote_embeddings remote texts).map
    (fun embeddings => embeddings.map (fun v => v.map round5))

/-- The Vector Normalizer of spec section 4.4, stated in the spec's own words
for one vector: divide by the Euclidean norm, treating a zero norm as norm 1
so the zero vector passes through unchanged. -/
noncomputable def normalizeVec (v : List ℝ) : List ℝ :=
  let n := Real.sqrt (sumSq v)
  let n1 := if n = 0 then 1 else n
  v.map (fun x => x / n1)

/-- The spec's full per-vector pipeline: L2-normalize, then round each
coordinate to 5 decimal digits. -/
noncomputable def specNormalizeRound (v : List ℝ) : List ℝ :=
  (normalizeVec v).map round5

/-! ## Relational data model (crud.py over the tables of models.py)

Tables are lists of rows; list order stands for rowid order, and appending
stands for INSERT. -/

/-- Modelled from the spec: MetadataSource (schemas.py is not under src/);
spec section 3 gives source of an attribution as human or plugin-generated. -/
inductive MetadataSource where
  | human : MetadataSource
  | plugin_generated : MetadataSource
deriving DecidableEq, BEq

/-- One row of the entities table; only the columns crud.py's tag, metadata,
listing and context operations read or write are kept. -/
structure Entity where
  id : Nat
  library_id : Nat
  file_created_at : Nat
  file_type_group : String
  last_scan_at : Nat
deriving DecidableEq, BEq

/-- One row of the tags table (TagModel): a deduplicated label. -/
structure Tag where
  id : Nat
  name : String
deriving DecidableEq, BEq

/-- One row of entity_tags (EntityTagModel): the attribution edge. -/
structure EntityTag where
  entity_id : Nat
  tag_id : Nat
  source : MetadataSource
deriving DecidableEq, BEq

/-- One row of entity_metadata (EntityMetadataModel). -/
structure MetaRow where
  entity_id : Nat
  key : String
  value : String
  source : Option String
  source_type : Option MetadataSource
  data_type : String
deriving DecidableEq, BEq

/-- One row of plugins (PluginModel); only the id takes part in the claims. -/
structure Plugin where
  id : Nat
  name : String
deriving DecidableEq, BEq

/-- One row of library_plugins (LibraryPluginModel). -/
structure LibraryPlugin where
  library_id : Nat
  plugin_id : Nat
deriving DecidableEq, BEq

/-- One row of entity_plugin_status (EntityPluginStatusModel). -/
structure StatusRow where
  entity_id : Nat
  plugin_id : Nat
  processed_at : Nat
deriving DecidableEq, BEq

/-- The store state: one list per table touched by the claims. -/
structure DBState where
  entities : List Entity
  tags : List Tag
  entity_tags : List EntityTag
  meta : List MetaRow
  plugins : List Plugin
  library_plugins : List LibraryPlugin
  statuses : List StatusRow
deriving DecidableEq, BEq

/-- Exceptions crud.py raises: notFound models the ValueError raised by the
explicit not-found checks; attributeError models Python's AttributeError from
dereferencing None; integrityError models the storage layer rejecting a
constraint-violating INSERT. -/
inductive CrudErr where
  | notFound : CrudErr
  | attributeError : CrudErr
  | integrityError : CrudErr
deriving DecidableEq, BEq

/-- EntityMetadataParam (schemas.py is not under src/): key, value, optional
source and a data type, exactly the fields crud.py reads from it. -/
structure EntityMetadataParam where
  key : String
  value : String
  source : Option String
  data_type : String
deriving DecidableEq, BEq

/-- get_entity_by_id (crud.py): first entities row with the given id. -/
def get_entity_by_id (s : DBState) (eid : Nat) : Option Entity :=
  s.entities.find? (fun e => e.id == eid)

/-- The last_scan_at = func.now() stamp crud.py applies inside the same unit
of work as a tag or metadata write. -/
def touch (s : DBState) (eid : Nat) (now : Nat) : DBState :=
  { s with entities :=
      s.entities.map (fun e => if e.id == eid then { e with last_scan_at := now } else e) }

/-- Autoincrement id for a fresh tags row. -/
def nextTagId (s : DBState) : Nat := (s.tags.map (fun t => t.id)).foldr max 0 + 1

/-- The find-or-create step shared by every tag-writing loop in crud.py:
query TagModel by name; if absent, insert a fresh row and use it. -/
def getOrCreateTag (s : DBState) (name : String) : DBState × Tag :=
  match s.tags.find? (fun t => t.name == name) with
  | some t => (s, t)
  | none =>
      let t : Tag := { id := nextTagId s, name := name }
      ({ s with tags := s.tags ++ [t] }, t)

/-- Insert one attribution edge.  Modelled from the spec: entity_tags is
unique on (entity_id, tag_id) (spec section 6; the table definitions in
models.py are not under src/), so inserting a second edge for the same pair
is rejected by the storage layer. -/
def insertEdge (s : DBState) (eid tid : Nat) (src : MetadataSource) :
    Except CrudErr DBState :=
  if s.entity_tags.any (fun x => x.entity_id == eid && x.tag_id == tid) then
    Except.error CrudErr.integrityError
  else
    Except.ok { s with entity_tags := s.entity_tags ++ [⟨eid, tid, src⟩] }

/-- The for tag_name in ... loop shared by create_entity, update_entity_tags
and add_new_tags: find or create each tag, then insert an attribution edge
with source = MetadataSource.PLUGIN_GENERATED. -/
def addTagNames (eid : Nat) (names : List String) (s : DBState) :
    Except CrudErr DBState :=
  names.foldlM
    (fun st n =>
      let p := getOrCreateTag st n
      insertEdge p.1 eid p.2.id MetadataSource.plugin_generated)
    s

/-- Number of attribution edges for one (entity, tag) pair. -/
def edgeCount (s : DBState) (eid tid : Nat) : Nat :=
  (s.entity_tags.filter (fun x => x.entity_id == eid && x.tag_id == tid)).length

/-- Tag names already attached to an entity: set(tag.name for tag in
db_entity.tags), reading the relationship through entity_tags and tags. -/
def existingTagNames (s : DBState) (eid : Nat) : List String :=
  (s.entity_tags.filter (fun x => x.entity_id == eid)).filterMap
    (fun x => (s.tags.find? (fun t => t.id == x.tag_id)).map (fun t => t.name))

/-- update_entity_tags (crud.py lines 353-385): raise if the entity is
missing, delete all of its attribution edges, then insert one edge per
element of the given list, and stamp last_scan_at in the same unit of work. -/
def update_entity_tags (s : DBState) (eid : Nat) (tags : List String)
    (now : Nat) : Except CrudErr DBState :=
  match get_entity_by_id s eid with
  | none => Except.error CrudErr.notFound
  | some _ =>
      let cleared :=
        { s with entity_tags := s.entity_tags.filter (fun x => !(x.entity_id == eid)) }
      (addTagNames eid tags cleared).map (fun st => touch st eid now)

/-- add_new_tags (crud.py lines 388-416): raise if the entity is missing,
compute new_tags = set(tags) - existing names, and insert an edge for each
genuinely new name only.  Python iterates a set; the model fixes first-seen
order (List.dedup keeps the last occurrence of equals, which only permutes
an order the source leaves unspecified). -/
def add_new_tags (s : DBState) (eid : Nat) (tags : List String) (now : Nat) :
    Except CrudErr DBState :=
  match get_entity_by_id s eid with
  | none => Except.error CrudErr.notFound
  | some _ =>
      let news := tags.dedup.filter (fun n => !(existingTagNames s eid).contains n)
      (addTagNames eid news s).map (fun st => touch st eid now)

/-- Python truthiness of an optional string: None and the empty string are
falsy.  create_entity writes source_type with an `if attr.source` test. -/
def pyTruthy : Option String → Bool
  | none => false
  | some s => !s.isEmpty

/-- The entity_metadata row create_entity inserts for one initial metadata
parameter. -/
def mkCreateMetaRow (eid : Nat) (m : EntityMetadataParam) : MetaRow :=
  { entity_id := eid, key := m.key, value := m.value, source := m.source,
    source_type :=
      if pyTruthy m.source then some MetadataSource.plugin_generated else none,
    data_type := m.data_type }

/-- NewEntityParam (schemas.py is not under src/): the entity columns kept in
this model plus the optional initial tags and metadata entries create_entity
strips off and applies separately. -/
structure NewEntityParam where
  file_created_at : Nat
  file_type_group : String
  tags : List String
  metadata_entries : List EntityMetadataParam
deriving DecidableEq, BEq

/-- Autoincrement id for a fresh entities row. -/
def nextEntityId (s : DBState) : Nat :=
  (s.entities.map (fun e => e.id)).foldr max 0 + 1

/-- create_entity (crud.py lines 107-156): insert the entity row, then loop
over the initial tags (find-or-create plus one attribution edge each, source
PLUGIN_GENERATED), then insert one entity_metadata row per initial metadata
entry. -/
def create_entity (s : DBState) (library_id : Nat) (p : NewEntityParam) :
    Except CrudErr DBState :=
  let eid := nextEntityId s
  let s1 :=
    { s with entities :=
        s.entities ++
          [{ id := eid, library_id := library_id,
             file_created_at := p.file_created_at,
             file_type_group := p.file_type_group, last_scan_at := 0 }] }
  (addTagNames eid p.tags s1).map
    (fun st =>
      { st with meta := st.meta ++ p.metadata_entries.map (mkCreateMetaRow eid) })

/-- Replace the first element satisfying p by its image under f. -/
def setFirst (p : α → Bool) (f : α → α) : List α → List α
  | [] => []
  | x :: xs => if p x then f x :: xs else x :: setFirst p f xs

/-- Replace the last element satisfying p by its image under f.  The Python
dict built by update_entity_metadata_entries maps each key to the last row
bearing it, so an in-place ORM mutation lands on that row. -/
def setLast (p : α → Bool) (f : α → α) (l : List α) : List α :=
  (setFirst p f l.reverse).reverse

/-- Whether the snapshot dict of update_entity_metadata_entries has this key:
some entity_metadata row of this entity bears it. -/
def hasKey (s : DBState) (eid : Nat) (k : String) : Bool :=
  s.meta.any (fun r => r.entity_id == eid && r.key == k)

/-- The in-place mutation update_entity_metadata_entries applies to an
existing row: value and data_type are always overwritten; source and
source_type only when the incoming write declares a source (is not None). -/
def applyMetaUpdate (m : EntityMetadataParam) (r : MetaRow) : MetaRow :=
  { r with
    value := m.value,
    source := match m.source with | some srcv => some srcv | none => r.source,
    source_type :=
      match m.source with
      | some _ => some MetadataSource.plugin_generated
      | none => r.source_type,
    data_type := m.data_type }

/-- The fresh entity_metadata row update_entity_metadata_entries inserts for
a key absent from the snapshot dict (source tested with `is not None`). -/
def mkMetaRow (eid : Nat) (m : EntityMetadataParam) : MetaRow :=
  { entity_id := eid, key := m.key, value := m.value, source := m.source,
    source_type :=
      match m.source with
      | some _ => some MetadataSource.plugin_generated
      | none => none,
    data_type := m.data_type }

/-- One iteration of the for metadata in updated_metadata loop, against the
key snapshot taken before the loop started. -/
def metaStep (eid : Nat) (snapshotHas : String → Bool) (acc : List MetaRow)
    (m : EntityMetadataParam) : List MetaRow :=
  if snapshotHas m.key then
    setLast (fun r => r.entity_id == eid && r.key == m.key) (applyMetaUpdate m) acc
  else acc ++ [mkMetaRow eid m]

/-- update_entity_metadata_entries (crud.py lines 419-471).  Unlike the tag
paths there is no not-found check: a missing entity id reaches db_entity.id
while db_entity is None and raises AttributeError before anything is
written.  Otherwise the existing rows of the entity are snapshotted into a
key-indexed dict once, and each incoming entry either mutates the dict's row
in place or inserts a fresh row; last_scan_at is stamped in the same unit of
work. -/
def update_entity_metadata_entries (s : DBState) (eid : Nat)
    (updated : List EntityMetadataParam) (now : Nat) : Except CrudErr DBState :=
  match get_entity_by_id s eid with
  | none => Except.error CrudErr.attributeError
  | some _ =>
      Except.ok
        (touch { s with meta := updated.foldl (metaStep eid (hasKey s eid)) s.meta }
          eid now)

/-- The entity_metadata rows of one entity bearing one key. -/
def metaFor (s : DBState) (eid : Nat) (k : String) : List MetaRow :=
  s.meta.filter (fun r => r.entity_id == eid && r.key == k)

/-- record_plugin_processed (crud.py lines 578-582): db.merge on the
(entity_id, plugin_id) primary key (spec section 6; models.py is not under
src/) inserts the status row or updates the existing one, so processed_at is
last-write-wins. -/
def record_plugin_processed (s : DBState) (eid pid now : Nat) : DBState :=
  if s.statuses.any (fun r => r.entity_id == eid && r.plugin_id == pid) then
    { s with statuses :=
        (setFirst (fun r => r.entity_id == eid && r.plugin_id == pid)
          (fun r => { r with processed_at := now }) s.statuses) }
  else { s with statuses := s.statuses ++ [⟨eid, pid, now⟩] }

/-- The status rows for one (entity, plugin) pair. -/
def statusFor (s : DBState) (eid pid : Nat) : List StatusRow :=
  s.statuses.filter (fun r => r.entity_id == eid && r.plugin_id == pid)

/-- The plugin ids the join of PluginModel with LibraryPluginModel yields for
one library: one occurrence per library_plugins row of that library whose
plugin id exists in plugins. -/
def boundPluginIds (s : DBState) (lid : Nat) : List Nat :=
  (s.library_plugins.filter (fun lp => lp.library_id == lid)).filterMap
    (fun lp => (s.plugins.find? (fun p => p.id == lp.plugin_id)).map (fun p => p.id))

/-- Plugin ids with a status row for this entity. -/
def processedPluginIds (s : DBState) (eid : Nat) : List Nat :=
  (s.statuses.filter (fun r => r.entity_id == eid)).map (fun r => r.plugin_id)

/-- get_pending_plugins (crud.py lines 585-605): list(set(bound) -
set(processed)).  Python's set order is unspecified; the model deduplicates
and filters, which realises one admissible order. -/
def get_pending_plugins (s : DBState) (eid lid : Nat) : List Nat :=
  (boundPluginIds s lid).dedup.filter
    (fun p => !(processedPluginIds s eid).contains p)

/-! ## Listing and context reads -/

/-- Byte-wise lexicographic strict order on char lists: SQLite's BINARY text
collation restricted to the ASCII digit strings compared here. -/
def charListLt : List Char → List Char → Bool
  | [], [] => false
  | [], _ :: _ => true
  | _ :: _, [] => false
  | a :: as, b :: bs => a < b || (a == b && charListLt as bs)

/-- SQLite text comparison a <= b under BINARY collation. -/
def strLeB (a b : String) : Bool := !(charListLt b.data a.data)

/-- The condition SQLite evaluates for the time-range filter of
list_entities: strftime of the creation time rendered as a decimal string,
compared with BETWEEN against str(start) and str(stop) as text. -/
def timeStrBetween (created start stop : Nat) : Bool :=
  strLeB (Nat.repr start) (Nat.repr created) &&
    strLeB (Nat.repr created) (Nat.repr stop)

/-- Creation-time descending, the ORDER BY of list_entities. -/
def createdGe (a b : Entity) : Prop := b.file_created_at ≤ a.file_created_at

/-- Creation-time ascending, chronological order. -/
def createdLe (a b : Entity) : Prop := a.file_created_at ≤ b.file_created_at

instance : DecidableRel createdGe := fun a b =>
  (inferInstance : Decidable (b.file_created_at ≤ a.file_created_at))

instance : DecidableRel createdLe := fun a b =>
  (inferInstance : Decidable (a.file_created_at ≤ b.file_created_at))

instance : IsTotal Entity createdGe :=
  ⟨fun a b => Nat.le_total b.file_created_at a.file_created_at⟩

instance : IsTrans Entity createdGe :=
  ⟨fun _ _ _ h1 h2 => Nat.le_trans h2 h1⟩

instance : IsTotal Entity createdLe :=
  ⟨fun a b => Nat.le_total a.file_created_at b.file_created_at⟩

instance : IsTrans Entity createdLe :=
  ⟨fun _ _ _ h1 h2 => Nat.le_trans h1 h2⟩

/-- The WHERE clause of list_entities on one row: file_type_group must be
image; `if library_ids:` applies the library filter only for a non-empty
list (None and [] are both falsy); the time filter applies only when both
bounds are given and compares epoch seconds as text. -/
def listFilter (library_ids : Option (List Nat)) (start stop : Option Nat)
    (e : Entity) : Bool :=
  e.file_type_group == "image" &&
    (match library_ids with
     | some ids => if ids.isEmpty then true else ids.contains e.library_id
     | none => true) &&
    (match start, stop with
     | some a, some b => timeStrBetween e.file_created_at a b
     | _, _ => true)

/-- list_entities (crud.py lines 495-520): filter as above, order by
file_created_at descending (ties in an order the engine leaves unspecified;
the model uses a stable sort), truncate to limit. -/
def list_entities (s : DBState) (limit : Nat) (library_ids : Option (List Nat))
    (start stop : Option Nat) : List Entity :=
  ((s.entities.filter (listFilter library_ids start stop)).insertionSort
      createdGe).take limit

/-- get_entity_context (crud.py lines 523-575): look up the anchor by id and
library; absent anchor yields two empty lists.  Otherwise take up to prev
entities of the same library strictly earlier by creation time (closest
first, then reversed into chronological order) and up to next entities
strictly later (chronological order). -/
def get_entity_context (s : DBState) (lid eid : Nat) (prev next : Nat) :
    List Entity × List Entity :=
  match s.entities.find? (fun e => e.id == eid && e.library_id == lid) with
  | none => ([], [])
  | some target =>
      let prevs :=
        if 0 < prev then
          (((s.entities.filter
                (fun e => e.library_id == lid &&
                  e.file_created_at < target.file_created_at)).insertionSort
              createdGe).take prev).reverse
        else []
      let nexts :=
        if 0 < next then
          ((s.entities.filter
              (fun e => e.library_id == lid &&
                target.file_created_at < e.file_created_at)).insertionSort
            createdLe).take next
        else []
      (prevs, nexts)

/-! ## The tag-writing operations as a little language (claims C4 and C9) -/

/-- One public tag-writing operation of the store. -/
inductive TagWrite where
  | create (library_id : Nat) (p : NewEntityParam) : TagWrite
  | replaceTags (eid : Nat) (tags : List String) (now : Nat) : TagWrite
  | addTags (eid : Nat) (tags : List String) (now : Nat) : TagWrite

/-- Dispatch one tag write to the crud.py operation it names. -/
def applyTagWrite (s : DBState) : TagWrite → Except CrudErr DBState
  | TagWrite.create lib p => create_entity s lib p
  | TagWrite.replaceTags eid tags now => update_entity_tags s eid tags now
  | TagWrite.addTags eid tags now => add_new_tags s eid tags now

/-- Run a sequence of tag writes; a raised exception aborts the sequence. -/
def runTagWrites (s : DBState) : List TagWrite → Except CrudErr DBState
  | [] => Except.ok s
  | w :: ws =>
      match applyTagWrite s w with
      | Except.ok s1 => runTagWrites s1 ws
      | Except.error e => Except.error e

/-- The tag-set invariant of spec section 3: at most one attribution edge per
(entity, tag) pair. -/
def TagInv (s : DBState) : Prop := ∀ eid tid, edgeCount s eid tid ≤ 1

/-- All attribution edges carry plugin provenance (claim C9). -/
def AllEdgesPlugin (s : DBState) : Prop :=
  ∀ x ∈ s.entity_tags, x.source = MetadataSource.plugin_generated

/-! ## Concrete fixtures used by witnesses and counterexamples -/

/-- A store with every table empty. -/
def emptyDB : DBState :=
  { entities := [], tags := [], entity_tags := [], meta := [], plugins := [],
    library_plugins := [], statuses := [] }

/-- An image entity row for fixtures. -/
def entW (i lib ts : Nat) : Entity :=
  { id := i, library_id := lib, file_created_at := ts,
    file_type_group := "image", last_scan_at := 0 }

/-- Five entities of one library with creation times 10 to 50: the layout of
spec testable property 5. -/
def ctxState : DBState :=
  { emptyDB with entities :=
      [entW 1 1 10, entW 2 1 20, entW 3 1 30, entW 4 1 40, entW 5 1 50] }

/-- One image entity created at epoch second 100. -/
def lexState : DBState := { emptyDB with entities := [entW 1 1 100] }

/-- One bare entity, the target of the small tag and metadata runs below. -/
def oneEntity : DBState := { emptyDB with entities := [entW 1 1 10] }

/-- The store oneEntity reaches after add_new_tags 1 with the single tag x at
time 7. -/
def oneEntityTagged : DBState :=
  { emptyDB with
    entities := [{ id := 1, library_id := 1, file_created_at := 10,
                   file_type_group := "image", last_scan_at := 7 }],
    tags := [{ id := 1, name := "x" }],
    entity_tags := [{ entity_id := 1, tag_id := 1,
                      source := MetadataSource.plugin_generated }] }

/-- First metadata write of the C3 run: key a, value v1, declared source. -/
def mW1 : EntityMetadataParam :=
  { key := "a", value := "v1", source := some "ocr", data_type := "text" }

/-- Second metadata write of the C3 run: same key, new value, no source. -/
def mW2 : EntityMetadataParam :=
  { key := "a", value := "v2", source := none, data_type := "text" }

/-- oneEntity after the first metadata write (at time 1). -/
def metaS1 : DBState :=
  { emptyDB with
    entities := [{ id := 1, library_id := 1, file_created_at := 10,
                   file_type_group := "image", last_scan_at := 1 }],
    meta := [{ entity_id := 1, key := "a", value := "v1",
               source := some "ocr",
               source_type := some MetadataSource.plugin_generated,
               data_type := "text" }] }

/-- metaS1 after the second metadata write (at time 2): the value changed,
the provenance of the first write survived. -/
def metaS2 : DBState :=
  { emptyDB with
    entities := [{ id := 1, library_id := 1, file_created_at := 10,
                   file_type_group := "image", last_scan_at := 2 }],
    meta := [{ entity_id := 1, key := "a", value := "v2",
               source := some "ocr",
               source_type := some MetadataSource.plugin_generated,
               data_type := "text" }] }

/-- The store the empty store reaches after create_entity with one initial
tag x. -/
def createdTagged : DBState :=
  { emptyDB with
    entities := [entW 1 1 10],
    tags := [{ id := 1, name := "x" }],
    entity_tags := [{ entity_id := 1, tag_id := 1,
                      source := MetadataSource.plugin_generated }] }

/-- A library bound to plugins 1, 2 and 3, with plugin 1 recorded complete
for entity 1: the layout of spec testable property 7. -/
def pluginState : DBState :=
  { emptyDB with
    entities := [entW 1 1 10],
    plugins := [{ id := 1, name := "A" }, { id := 2, name := "B" },
                { id := 3, name := "C" }],
    library_plugins := [{ library_id := 1, plugin_id := 1 },
                        { library_id := 1, plugin_id := 2 },
                        { library_id := 1, plugin_id := 3 }],
    statuses := [{ entity_id := 1, plugin_id := 1, processed_at := 4 }] }

/-! ## Theorems -/

/-- C1: the claim says any transport failure or any non-2xx response makes
get_remote_embeddings return [] without propagating an exception.  The code
catches only httpx.RequestError, so the httpx.HTTPStatusError thrown by
raise_for_status() on a non-2xx response propagates to the caller; only the
transport-failure half of the claim holds.  This theorem evaluates the code
at the failing input (an HTTP 500 response) and at a transport failure. -/
theorem c1_non2xx_response_propagates :
    get_remote_embeddings (fun _ => RemoteOutcome.response 500 []) ["a"] =
      Except.error EmbedErr.httpStatusError ∧
    get_remote_embeddings (fun _ => RemoteOutcome.transportError) ["a", "b"] =
      Except.ok [] := by
  constructor
  · simp [get_remote_embeddings]
  · rfl

/-- Membership in the join of plugins with library_plugins for a library. -/
theorem mem_boundPluginIds (s : DBState) (lid pid : Nat) :
    pid ∈ boundPluginIds s lid ↔
      ∃ lp ∈ s.library_plugins, lp.library_id = lid ∧ lp.plugin_id = pid ∧
        ∃ q ∈ s.plugins, q.id = pid := by
  unfold boundPluginIds
  simp only [List.mem_filterMap, List.mem_filter, Option.map_eq_some']
  constructor
  · rintro ⟨lp, ⟨hlp, hlib⟩, q, hq, hid⟩
    have hqmem := List.mem_of_find?_eq_some hq
    have hqpred := List.find?_some hq
    refine ⟨lp, hlp, by simpa using hlib, ?_, q, hqmem, hid⟩
    have : q.id = lp.plugin_id := by simpa using hqpred
    omega
  · rintro ⟨lp, hlp, hlib, hpid, q, hq, hid⟩
    refine ⟨lp, ⟨hlp, by simpa using hlib⟩, ?_⟩
    have hsome : (s.plugins.find? (fun p => p.id == lp.plugin_id)).isSome := by
      rw [List.find?_isSome]
      exact ⟨q, hq, by simp [hid, hpid]⟩
    rcases Option.isSome_iff_exists.mp hsome with ⟨q1, hq1⟩
    have hq1pred : q1.id = lp.plugin_id := by simpa using List.find?_some hq1
    exact ⟨q1, hq1, by omega⟩

/-- C5: get_pending_plugins returns exactly the set difference between the
plugins bound to the library and the plugins with a completion status row
for the entity, as a duplicate-free list whose order carries no meaning. -/
theorem c5_pending_plugins_set_difference (s : DBState) (eid lid pid : Nat) :
    (pid ∈ get_pending_plugins s eid lid ↔
      ((∃ lp ∈ s.library_plugins, lp.library_id = lid ∧ lp.plugin_id = pid ∧
          ∃ q ∈ s.plugins, q.id = pid) ∧
        ¬ ∃ r ∈ s.statuses, r.entity_id = eid ∧ r.plugin_id = pid)) ∧
    (get_pending_plugins s eid lid).Nodup := by
  constructor
  · unfold get_pending_plugins
    rw [List.mem_filter, List.mem_dedup, mem_boundPluginIds]
    unfold processedPluginIds
    simp [List.mem_filter]
  · exact (List.nodup_dedup _).filter _

/-- The spec's concrete pending-plugin example: library bound to plugins 1, 2
and 3, entity 1 complete for plugin 1; the pending set is exactly 2 and 3. -/
theorem c5_pending_plugins_example :
    get_pending_plugins pluginState 1 1 = [2, 3] := by decide

/-- C10: update_entity_metadata_entries performs no not-found check; on an
absent entity id it dereferences None (AttributeError) before writing
anything, while add_new_tags and update_entity_tags raise their named
not-found failure.  Errors carry no successor state, so no metadata is
written. -/
theorem c10_metadata_update_missing_entity (s : DBState) (eid : Nat)
    (updated : List EntityMetadataParam) (tags : List String) (now : Nat)
    (h : get_entity_by_id s eid = none) :
    update_entity_metadata_entries s eid updated now =
      Except.error CrudErr.attributeError ∧
    add_new_tags s eid tags now = Except.error CrudErr.notFound ∧
    update_entity_tags s eid tags now = Except.error CrudErr.notFound := by
  refine ⟨?_, ?_, ?_⟩ <;>
    simp [update_entity_metadata_entries, add_new_tags, update_entity_tags, h]

/-- Witness for C10 at the empty store and entity id 1. -/
theorem c10_metadata_update_missing_entity_witness :
    get_entity_by_id emptyDB 1 = none ∧
      update_entity_metadata_entries emptyDB 1 [] 0 =
        Except.error CrudErr.attributeError :=
  ⟨by decide,
    (c10_metadata_update_missing_entity emptyDB 1 [] [] 0 (by decide)).1⟩

/-- Inversion for a successful Except.map. -/
theorem except_map_ok {ε α β : Type _} {f : α → β} {x : Except ε α} {y : β}
    (h : x.map f = Except.ok y) : ∃ a, x = Except.ok a ∧ y = f a := by
  cases x with
  | error e => simp [Except.map] at h
  | ok a =>
      refine ⟨a, rfl, ?_⟩
      have : Except.ok (ε := ε) (f a) = Except.ok y := h
      injection this with h1
      exact h1.symm

/-- TagInv only looks at the attribution edges. -/
theorem tagInv_congr {a b : DBState} (h : a.entity_tags = b.entity_tags) :
    TagInv a ↔ TagInv b := by
  unfold TagInv edgeCount
  rw [h]

/-- AllEdgesPlugin only looks at the attribution edges. -/
theorem allEdgesPlugin_congr {a b : DBState} (h : a.entity_tags = b.entity_tags) :
    AllEdgesPlugin a ↔ AllEdgesPlugin b := by
  unfold AllEdgesPlugin
  rw [h]

/-- getOrCreateTag never changes the attribution edges. -/
theorem getOrCreateTag_edges (s : DBState) (n : String) :
    (getOrCreateTag s n).1.entity_tags = s.entity_tags := by
  unfold getOrCreateTag
  cases s.tags.find? (fun t => t.name == n) <;> rfl

/-- A successful edge insert appends exactly one edge for a pair that had
none. -/
theorem insertEdge_ok (s : DBState) (eid tid : Nat) (src : MetadataSource)
    (s1 : DBState) (h : insertEdge s eid tid src = Except.ok s1) :
    s1.entity_tags = s.entity_tags ++ [⟨eid, tid, src⟩] ∧
      s.entity_tags.filter
        (fun x => x.entity_id == eid && x.tag_id == tid) = [] := by
  unfold insertEdge at h
  by_cases hany :
      s.entity_tags.any (fun x => x.entity_id == eid && x.tag_id == tid) = true
  · rw [if_pos hany] at h
    exact absurd h (by simp)
  · rw [if_neg hany] at h
    injection h with h1
    constructor
    · rw [← h1]
    · rw [List.filter_eq_nil_iff]
      intro a ha hpa
      exact hany (List.any_eq_true.mpr ⟨a, ha, hpa⟩)

/-- A successful edge insert keeps both claim invariants. -/
theorem insertEdge_props (s : DBState) (eid tid : Nat) (src : MetadataSource)
    (s1 : DBState) (h : insertEdge s eid tid src = Except.ok s1) :
    (TagInv s → TagInv s1) ∧
      (AllEdgesPlugin s → src = MetadataSource.plugin_generated →
        AllEdgesPlugin s1) := by
  obtain ⟨happ, hnil⟩ := insertEdge_ok s eid tid src s1 h
  constructor
  · intro hinv a b
    unfold edgeCount
    rw [happ, List.filter_append]
    by_cases hx : ((⟨eid, tid, src⟩ : EntityTag).entity_id == a &&
        (⟨eid, tid, src⟩ : EntityTag).tag_id == b) = true
    · rw [Bool.and_eq_true, beq_iff_eq, beq_iff_eq] at hx
      rw [← hx.1, ← hx.2, hnil]
      simp [hx]
    · rw [List.filter_cons_of_neg (by simpa using hx)]
      simpa using hinv a b
  · intro hall hsrc x hx
    rw [happ] at hx
    rcases List.mem_append.mp hx with hmem | hmem
    · exact hall x hmem
    · rw [List.mem_singleton.mp hmem, hsrc]

/-- The shared find-or-create-and-insert loop keeps both claim invariants
and only appends plugin-sourced edges. -/
theorem addTagNames_props (eid : Nat) :
    ∀ (names : List String) (s s1 : DBState),
      addTagNames eid names s = Except.ok s1 →
      (TagInv s → TagInv s1) ∧ (AllEdgesPlugin s → AllEdgesPlugin s1) := by
  intro names
  induction names with
  | nil =>
      intro s s1 h
      have : s = s1 := by
        unfold addTagNames at h
        injection h
      rw [this]
      exact ⟨id, id⟩
  | cons n ns ih =>
      intro s s1 h
      unfold addTagNames at h
      rw [List.foldlM_cons] at h
      cases hstep : insertEdge (getOrCreateTag s n).1 eid (getOrCreateTag s n).2.id
          MetadataSource.plugin_generated with
      | error e => rw [hstep] at h; exact Except.noConfusion h
      | ok smid =>
          rw [hstep] at h
          have hrest : addTagNames eid ns smid = Except.ok s1 := h
          have hmid := insertEdge_props _ eid _ _ smid hstep
          have hedges := getOrCreateTag_edges s n
          rcases ih smid s1 hrest with ⟨ihInv, ihAll⟩
          constructor
          · intro hinv
            exact ihInv (hmid.1 ((tagInv_congr hedges).mpr hinv))
          · intro hall
            exact ihAll (hmid.2 ((allEdgesPlugin_congr hedges).mpr hall) rfl)

/-- update_entity_tags keeps both claim invariants. -/
theorem update_entity_tags_props (s : DBState) (eid : Nat)
    (tags : List String) (now : Nat) (s1 : DBState)
    (h : update_entity_tags s eid tags now = Except.ok s1) :
    (TagInv s → TagInv s1) ∧ (AllEdgesPlugin s → AllEdgesPlugin s1) := by
  unfold update_entity_tags at h
  cases hfind : get_entity_by_id s eid with
  | none => rw [hfind] at h; exact absurd h (by simp)
  | some e0 =>
      rw [hfind] at h
      obtain ⟨st, hadd, hs1⟩ := except_map_ok h
      have htouch : s1.entity_tags = st.entity_tags := by rw [hs1]; rfl
      rcases addTagNames_props eid tags _ st hadd with ⟨hInv, hAll⟩
      constructor
      · intro hinv
        refine (tagInv_congr htouch).mpr (hInv ?_)
        intro a b
        unfold edgeCount
        calc ((s.entity_tags.filter (fun x => !(x.entity_id == eid))).filter
              (fun x => x.entity_id == a && x.tag_id == b)).length
            ≤ (s.entity_tags.filter
              (fun x => x.entity_id == a && x.tag_id == b)).length :=
              ((s.entity_tags.filter_sublist).filter _).length_le
          _ ≤ 1 := hinv a b
      · intro hall
        refine (allEdgesPlugin_congr htouch).mpr (hAll ?_)
        intro x hx
        exact hall x (List.mem_of_mem_filter hx)

/-- add_new_tags keeps both claim invariants. -/
theorem add_new_tags_props (s : DBState) (eid : Nat) (tags : List String)
    (now : Nat) (s1 : DBState)
    (h : add_new_tags s eid tags now = Except.ok s1) :
    (TagInv s → TagInv s1) ∧ (AllEdgesPlugin s → AllEdgesPlugin s1) := by
  unfold add_new_tags at h
  cases hfind : get_entity_by_id s eid with
  | none => rw [hfind] at h; exact absurd h (by simp)
  | some e0 =>
      rw [hfind] at h
      obtain ⟨st, hadd, hs1⟩ := except_map_ok h
      have htouch : s1.entity_tags = st.entity_tags := by rw [hs1]; rfl
      rcases addTagNames_props eid _ _ st hadd with ⟨hInv, hAll⟩
      exact ⟨fun hinv => (tagInv_congr htouch).mpr (hInv hinv),
        fun hall => (allEdgesPlugin_congr htouch).mpr (hAll hall)⟩

/-- create_entity keeps both claim invariants. -/
theorem create_entity_props (s : DBState) (lib : Nat) (p : NewEntityParam)
    (s1 : DBState) (h : create_entity s lib p = Except.ok s1) :
    (TagInv s → TagInv s1) ∧ (AllEdgesPlugin s → AllEdgesPlugin s1) := by
  unfold create_entity at h
  obtain ⟨st, hadd, hs1⟩ := except_map_ok h
  have hmeta : s1.entity_tags = st.entity_tags := by rw [hs1]
  rcases addTagNames_props (nextEntityId s) p.tags _ st hadd with ⟨hInv, hAll⟩
  constructor
  · intro hinv
    refine (tagInv_congr hmeta).mpr (hInv ?_)
    exact ((tagInv_congr (a := s) rfl).mp hinv)
  · intro hall
    refine (allEdgesPlugin_congr hmeta).mpr (hAll ?_)
    exact ((allEdgesPlugin_congr (a := s) rfl).mp hall)

/-- Every single public tag write keeps both claim invariants. -/
theorem applyTagWrite_props (s : DBState) (w : TagWrite) (s1 : DBState)
    (h : applyTagWrite s w = Except.ok s1) :
    (TagInv s → TagInv s1) ∧ (AllEdgesPlugin s → AllEdgesPlugin s1) := by
  cases w with
  | create lib p => exact create_entity_props s lib p s1 h
  | replaceTags eid tags now => exact update_entity_tags_props s eid tags now s1 h
  | addTags eid tags now => exact add_new_tags_props s eid tags now s1 h

/-- Any successful sequence of tag writes keeps both claim invariants. -/
theorem runTagWrites_props :
    ∀ (ws : List TagWrite) (s s1 : DBState),
      runTagWrites s ws = Except.ok s1 →
      (TagInv s → TagInv s1) ∧ (AllEdgesPlugin s → AllEdgesPlugin s1) := by
  intro ws
  induction ws with
  | nil =>
      intro s s1 h
      have : s = s1 := by
        unfold runTagWrites at h
        injection h
      rw [this]
      exact ⟨id, id⟩
  | cons w rest ih =>
      intro s s1 h
      unfold runTagWrites at h
      cases hstep : applyTagWrite s w with
      | error e => rw [hstep] at h; exact absurd h (by simp)
      | ok smid =>
          rw [hstep] at h
          rcases applyTagWrite_props s w smid hstep with ⟨hInv, hAll⟩
          rcases ih smid s1 h with ⟨ihInv, ihAll⟩
          exact ⟨fun hinv => ihInv (hInv hinv), fun hall => ihAll (hAll hall)⟩

/-- C4: after any successful sequence of tag writes starting from a store
satisfying the tag-set invariant, at most one attribution edge exists per
(entity, tag) pair; and the additive path is a set-level no-op for names the
entity already carries: it succeeds and leaves the edge table unchanged, so
re-adding a tag never creates a second edge.  The uniqueness constraint on
entity_tags that rejects a duplicate INSERT is modelled from spec section 6
because the table definitions (models.py) are not under src/. -/
theorem c4_at_most_one_edge_per_pair :
    (∀ (s : DBState) (ws : List TagWrite) (s1 : DBState),
        TagInv s → runTagWrites s ws = Except.ok s1 →
          ∀ eid tid, edgeCount s1 eid tid ≤ 1) ∧
    ∀ (s : DBState) (eid : Nat) (names : List String) (now : Nat) (e0 : Entity),
      get_entity_by_id s eid = some e0 →
      (∀ n ∈ names, (existingTagNames s eid).contains n = true) →
      add_new_tags s eid names now = Except.ok (touch s eid now) ∧
        (touch s eid now).entity_tags = s.entity_tags := by
  constructor
  · intro s ws s1 hinv hrun
    exact (runTagWrites_props ws s s1 hrun).1 hinv
  · intro s eid names now e0 hfind hex
    have hnews :
        names.dedup.filter (fun n => !(existingTagNames s eid).contains n) = [] := by
      rw [List.filter_eq_nil_iff]
      intro n hn
      have := hex n (List.mem_dedup.mp hn)
      simp [this]
      exact List.elem_iff.mp this
    constructor
    · unfold add_new_tags
      rw [hfind]
      simp only [hnews]
      rfl
    · rfl

/-- Witness for C4: one additive tag write on a one-entity store. -/
theorem c4_at_most_one_edge_per_pair_witness :
    TagInv oneEntity ∧
    runTagWrites oneEntity [TagWrite.addTags 1 ["x"] 7] =
      Except.ok oneEntityTagged ∧
    edgeCount oneEntityTagged 1 1 ≤ 1 := by
  have hinv : TagInv oneEntity := by
    intro a b
    simp [edgeCount, oneEntity, emptyDB]
  have hrun : runTagWrites oneEntity [TagWrite.addTags 1 ["x"] 7] =
      Except.ok oneEntityTagged := by rfl
  exact ⟨hinv, hrun,
    c4_at_most_one_edge_per_pair.1 oneEntity _ oneEntityTagged hinv hrun 1 1⟩

/-- C9: starting from a store whose attribution edges all carry plugin
provenance, every successful sequence of public tag writes (creation with
initial tags, the replacing path, the additive path) leaves only edges whose
source is MetadataSource.PLUGIN_GENERATED: no tag-writing operation ever
records human provenance on an edge. -/
theorem c9_tag_edges_plugin_provenance :
    ∀ (s : DBState) (ws : List TagWrite) (s1 : DBState),
      AllEdgesPlugin s → runTagWrites s ws = Except.ok s1 →
        AllEdgesPlugin s1 :=
  fun s ws s1 hall hrun => (runTagWrites_props ws s s1 hrun).2 hall

/-- Witness for C9: creating an entity with one initial tag from the empty
store yields only plugin-sourced edges. -/
theorem c9_tag_edges_plugin_provenance_witness :
    AllEdgesPlugin emptyDB ∧
    runTagWrites emptyDB
        [TagWrite.create 1
          { file_created_at := 10, file_type_group := "image",
            tags := ["x"], metadata_entries := [] }] =
      Except.ok createdTagged ∧
    AllEdgesPlugin createdTagged := by
  have hall : AllEdgesPlugin emptyDB := by
    intro x hx
    simp [emptyDB] at hx
  have hrun : runTagWrites emptyDB
      [TagWrite.create 1
        { file_created_at := 10, file_type_group := "image",
          tags := ["x"], metadata_entries := [] }] =
      Except.ok createdTagged := by rfl
  exact ⟨hall, hrun,
    c9_tag_edges_plugin_provenance emptyDB _ createdTagged hall hrun⟩

/-- The snapshot dict has a key exactly when the entity already has a
metadata row bearing it. -/
theorem hasKey_iff_metaFor_ne_nil (s : DBState) (eid : Nat) (k : String) :
    hasKey s eid k = true ↔ metaFor s eid k ≠ [] := by
  unfold hasKey metaFor
  rw [List.any_eq_true, Ne, List.filter_eq_nil_iff]
  push_neg
  simp

/-- A successful metadata update folds the incoming entries over the
metadata table against the key snapshot taken before the loop. -/
theorem meta_of_update (s : DBState) (eid : Nat)
    (updated : List EntityMetadataParam) (t : Nat) (s1 : DBState)
    (hok : update_entity_metadata_entries s eid updated t = Except.ok s1) :
    s1.meta = updated.foldl (metaStep eid (hasKey s eid)) s.meta := by
  unfold update_entity_metadata_entries at hok
  cases hfind : get_entity_by_id s eid with
  | none => rw [hfind] at hok; exact absurd hok (by simp)
  | some e0 =>
      rw [hfind] at hok
      injection hok with h
      rw [← h]
      rfl

/-- setFirst leaves a list without a matching element unchanged. -/
theorem setFirst_of_forall_not {p : α → Bool} {f : α → α} {l : List α}
    (h : ∀ a ∈ l, ¬ p a = true) : setFirst p f l = l := by
  induction l with
  | nil => rfl
  | cons x xs ih =>
      have hx : ¬ p x = true := h x (List.mem_cons_self x xs)
      simp only [setFirst, if_neg hx]
      rw [ih (fun a ha => h a (List.mem_cons_of_mem x ha))]

/-- Updating the first matching element updates the head of the filtered
view, provided the update keeps the element matching. -/
theorem filter_setFirst {p : α → Bool} {f : α → α} {l : List α} {r : α}
    {rs : List α} (h : l.filter p = r :: rs) (hpf : p (f r) = true) :
    (setFirst p f l).filter p = f r :: rs := by
  induction l with
  | nil => simp at h
  | cons x xs ih =>
      by_cases hx : p x = true
      · rw [List.filter_cons_of_pos hx] at h
        obtain ⟨hxr, hrs⟩ := List.cons_eq_cons.mp h
        subst hxr
        simp only [setFirst, if_pos hx]
        rw [List.filter_cons_of_pos hpf, hrs]
      · rw [List.filter_cons_of_neg (by simpa using hx)] at h
        simp only [setFirst, if_neg hx]
        rw [List.filter_cons_of_neg (by simpa using hx)]
        exact ih h

/-- Updating the last matching element of a list whose filtered view is a
single element replaces that element in the filtered view. -/
theorem filter_setLast_singleton {p : α → Bool} {f : α → α} {l : List α}
    {r : α} (h : l.filter p = [r]) (hpf : p (f r) = true) :
    (setLast p f l).filter p = [f r] := by
  unfold setLast
  rw [List.filter_reverse]
  have hrev : l.reverse.filter p = [r] := by
    rw [List.filter_reverse, h]
    rfl
  rw [filter_setFirst hrev hpf]
  rfl

/-- One single-entry metadata write: a fresh key appends the new row, an
existing key updates the (unique) existing row in place. -/
theorem meta_update_single (s : DBState) (eid : Nat) (m : EntityMetadataParam)
    (t : Nat) (s1 : DBState)
    (hok : update_entity_metadata_entries s eid [m] t = Except.ok s1) :
    (metaFor s eid m.key = [] → metaFor s1 eid m.key = [mkMetaRow eid m]) ∧
    ∀ r0, metaFor s eid m.key = [r0] →
      metaFor s1 eid m.key = [applyMetaUpdate m r0] := by
  have hmeta := meta_of_update s eid [m] t s1 hok
  have hfold : [m].foldl (metaStep eid (hasKey s eid)) s.meta
      = metaStep eid (hasKey s eid) s.meta m := rfl
  constructor
  · intro hnil
    have hk : ¬ hasKey s eid m.key = true := by
      rw [hasKey_iff_metaFor_ne_nil]
      simp [hnil]
    unfold metaFor at hnil ⊢
    rw [hmeta, hfold]
    unfold metaStep
    rw [if_neg hk, List.filter_append, hnil]
    simp [mkMetaRow]
  · intro r0 h0
    have hk : hasKey s eid m.key = true := by
      rw [hasKey_iff_metaFor_ne_nil]
      simp [h0]
    have hpred : (r0.entity_id == eid && r0.key == m.key) = true := by
      have : r0 ∈ metaFor s eid m.key := by
        rw [h0]; exact List.mem_singleton.mpr rfl
      exact (List.mem_filter.mp this).2
    unfold metaFor at h0 ⊢
    rw [hmeta, hfold]
    unfold metaStep
    rw [if_pos hk]
    exact filter_setLast_singleton h0 (by simpa [applyMetaUpdate] using hpred)

/-- C3: writing the same key twice through update_entity_metadata_entries
leaves exactly one row for that key, holding the later value; the later
write overwrites provenance only when it declares a source (source not
None), and otherwise the provenance standing after the first write is kept
unchanged. -/
theorem c3_metadata_upsert_provenance (s : DBState) (eid : Nat)
    (m1 m2 : EntityMetadataParam) (t1 t2 : Nat) (s1 s2 : DBState)
    (hk : m2.key = m1.key) (hinv : (metaFor s eid m1.key).length ≤ 1)
    (h1 : update_entity_metadata_entries s eid [m1] t1 = Except.ok s1)
    (h2 : update_entity_metadata_entries s1 eid [m2] t2 = Except.ok s2) :
    ∃ r1 r2, metaFor s1 eid m1.key = [r1] ∧ metaFor s2 eid m1.key = [r2] ∧
      r1.value = m1.value ∧ r2.value = m2.value ∧ r2.data_type = m2.data_type ∧
      (m2.source = none → r2.source = r1.source ∧ r2.source_type = r1.source_type) ∧
      ∀ src, m2.source = some src →
        r2.source = some src ∧
          r2.source_type = some MetadataSource.plugin_generated := by
  have single1 := meta_update_single s eid m1 t1 s1 h1
  have hr1 : ∃ r1, metaFor s1 eid m1.key = [r1] ∧ r1.value = m1.value := by
    match hl : metaFor s eid m1.key with
    | [] => exact ⟨mkMetaRow eid m1, single1.1 hl, rfl⟩
    | [r0] => exact ⟨applyMetaUpdate m1 r0, single1.2 r0 hl, rfl⟩
    | r0 :: rr :: rest => rw [hl] at hinv; simp at hinv
  obtain ⟨r1, hr1eq, hr1val⟩ := hr1
  have single2 := meta_update_single s1 eid m2 t2 s2 h2
  rw [hk] at single2
  have hr2eq : metaFor s2 eid m1.key = [applyMetaUpdate m2 r1] :=
    single2.2 r1 hr1eq
  refine ⟨r1, applyMetaUpdate m2 r1, hr1eq, hr2eq, hr1val, rfl, rfl, ?_, ?_⟩
  · intro hs
    constructor <;> simp [applyMetaUpdate, hs]
  · intro src hs
    constructor <;> simp [applyMetaUpdate, hs]

/-- Witness for C3: key a written twice on a one-entity store; the second
write carries no source and the provenance of the first write survives. -/
theorem c3_metadata_upsert_provenance_witness :
    mW2.key = mW1.key ∧ (metaFor oneEntity 1 mW1.key).length ≤ 1 ∧
    update_entity_metadata_entries oneEntity 1 [mW1] 1 = Except.ok metaS1 ∧
    update_entity_metadata_entries metaS1 1 [mW2] 2 = Except.ok metaS2 ∧
    ∃ r1 r2, metaFor metaS1 1 mW1.key = [r1] ∧ metaFor metaS2 1 mW1.key = [r2] ∧
      r1.value = mW1.value ∧ r2.value = mW2.value ∧ r2.data_type = mW2.data_type ∧
      (mW2.source = none → r2.source = r1.source ∧
        r2.source_type = r1.source_type) ∧
      ∀ src, mW2.source = some src →
        r2.source = some src ∧
          r2.source_type = some MetadataSource.plugin_generated :=
  ⟨rfl, by decide, by rfl, by rfl,
    c3_metadata_upsert_provenance oneEntity 1 mW1 mW2 1 2 metaS1 metaS2 rfl
      (by decide) (by rfl) (by rfl)⟩

/-- One merge of a status row: the (entity, plugin) pair afterwards has
exactly the one row stamped with the given time. -/
theorem statusFor_record (s : DBState) (e p t : Nat)
    (h : (statusFor s e p).length ≤ 1) :
    statusFor (record_plugin_processed s e p t) e p =
      [{ entity_id := e, plugin_id := p, processed_at := t }] := by
  by_cases hany :
      s.statuses.any (fun r => r.entity_id == e && r.plugin_id == p) = true
  · obtain ⟨r0, hr0⟩ : ∃ r0, statusFor s e p = [r0] := by
      rcases List.any_eq_true.mp hany with ⟨a, ha, hpa⟩
      have hmem : a ∈ statusFor s e p := List.mem_filter.mpr ⟨ha, hpa⟩
      match hl : statusFor s e p with
      | [] => rw [hl] at hmem; simp at hmem
      | [r0] => exact ⟨r0, rfl⟩
      | r0 :: r1 :: rest => rw [hl] at h; simp at h
    have hr0pred : (r0.entity_id == e && r0.plugin_id == p) = true := by
      have : r0 ∈ statusFor s e p := by rw [hr0]; exact List.mem_singleton.mpr rfl
      exact (List.mem_filter.mp this).2
    have hr0ep : r0.entity_id = e ∧ r0.plugin_id = p := by
      simpa [Bool.and_eq_true, beq_iff_eq] using hr0pred
    have hr0e : r0.entity_id = e := hr0ep.1
    have hr0p : r0.plugin_id = p := hr0ep.2
    unfold record_plugin_processed
    rw [if_pos hany]
    unfold statusFor at hr0 ⊢
    have := filter_setFirst (f := fun r => { r with processed_at := t }) hr0
      (by simpa using hr0pred)
    simp only [this]
    rw [hr0e, hr0p]
  · unfold record_plugin_processed
    rw [if_neg hany]
    unfold statusFor
    rw [List.filter_append]
    have hnil : statusFor s e p = [] := by
      unfold statusFor
      rw [List.filter_eq_nil_iff]
      intro a ha hpa
      exact hany (List.any_eq_true.mpr ⟨a, ha, hpa⟩)
    unfold statusFor at hnil
    rw [hnil]
    simp

/-- C6: recording completion twice for the same (entity, plugin) pair is an
upsert: exactly one status row remains, stamped with the later time, and the
pair's plugin is excluded from every pending set for that entity. -/
theorem c6_record_plugin_processed_idempotent (s : DBState) (e p t1 t2 : Nat)
    (h : (statusFor s e p).length ≤ 1) :
    statusFor (record_plugin_processed (record_plugin_processed s e p t1) e p t2)
        e p = [{ entity_id := e, plugin_id := p, processed_at := t2 }] ∧
    ∀ lid, p ∉ get_pending_plugins
      (record_plugin_processed (record_plugin_processed s e p t1) e p t2) e lid := by
  have h1 := statusFor_record s e p t1 h
  have h2 := statusFor_record (record_plugin_processed s e p t1) e p t2
    (by rw [h1]; simp)
  refine ⟨h2, ?_⟩
  intro lid hmem
  unfold get_pending_plugins at hmem
  rw [List.mem_filter] at hmem
  have hrow : ({ entity_id := e, plugin_id := p, processed_at := t2 } : StatusRow) ∈
      (record_plugin_processed (record_plugin_processed s e p t1) e p t2).statuses := by
    have : ({ entity_id := e, plugin_id := p, processed_at := t2 } : StatusRow) ∈
        statusFor (record_plugin_processed (record_plugin_processed s e p t1) e p t2)
          e p := by
      rw [h2]; exact List.mem_singleton.mpr rfl
    exact (List.mem_filter.mp this).1
  have hproc : p ∈ processedPluginIds
      (record_plugin_processed (record_plugin_processed s e p t1) e p t2) e := by
    unfold processedPluginIds
    rw [List.mem_map]
    exact ⟨_, List.mem_filter.mpr ⟨hrow, by simp⟩, rfl⟩
  have hnotin : p ∉ processedPluginIds
      (record_plugin_processed (record_plugin_processed s e p t1) e p t2) e := by
    simpa using hmem.2
  exact hnotin hproc

/-- Witness for C6: two records for entity 1 and plugin 2 on the empty store
leave one row stamped 9, and plugin 2 is not pending for entity 1. -/
theorem c6_record_plugin_processed_idempotent_witness :
    (statusFor emptyDB 1 2).length ≤ 1 ∧
    statusFor (record_plugin_processed (record_plugin_processed emptyDB 1 2 5) 1 2 9)
        1 2 = [{ entity_id := 1, plugin_id := 2, processed_at := 9 }] ∧
    2 ∉ get_pending_plugins
      (record_plugin_processed (record_plugin_processed emptyDB 1 2 5) 1 2 9) 1 1 :=
  ⟨by decide,
    (c6_record_plugin_processed_idempotent emptyDB 1 2 5 9 (by decide)).1,
    (c6_record_plugin_processed_idempotent emptyDB 1 2 5 9 (by decide)).2 1⟩

/-- Elements of the previous-context list lie in the anchor's library
strictly before it; elements of the next-context list strictly after. -/
theorem mem_context_filter (s : DBState) (lid : Nat) (bound : Nat → Prop)
    [DecidablePred bound] (x : Entity)
    (hx : x ∈ s.entities.filter (fun e => e.library_id == lid && bound e.file_created_at)) :
    x.library_id = lid ∧ bound x.file_created_at := by
  rcases List.mem_filter.mp hx with ⟨-, hcond⟩
  rw [Bool.and_eq_true, beq_iff_eq, decide_eq_true_eq] at hcond
  exact hcond

/-- C7: get_entity_context returns at most prev entities strictly earlier
and at most next entities strictly later than the anchor by creation time,
all from the anchor's library, each list in ascending chronological order;
a missing anchor yields two empty lists (the function is total: it never
raises). -/
theorem c7_get_entity_context_spec (s : DBState) (lid eid p n : Nat) :
    (s.entities.find? (fun e => e.id == eid && e.library_id == lid) = none →
      get_entity_context s lid eid p n = ([], [])) ∧
    ∀ t, s.entities.find? (fun e => e.id == eid && e.library_id == lid) = some t →
      (get_entity_context s lid eid p n).1.length ≤ p ∧
      (get_entity_context s lid eid p n).2.length ≤ n ∧
      (∀ x ∈ (get_entity_context s lid eid p n).1,
        x.library_id = lid ∧ x.file_created_at < t.file_created_at) ∧
      (∀ x ∈ (get_entity_context s lid eid p n).2,
        x.library_id = lid ∧ t.file_created_at < x.file_created_at) ∧
      (get_entity_context s lid eid p n).1.Sorted createdLe ∧
      (get_entity_context s lid eid p n).2.Sorted createdLe := by
  constructor
  · intro h
    unfold get_entity_context
    rw [h]
  · intro t ht
    unfold get_entity_context
    rw [ht]
    simp only
    constructor
    · by_cases hp : 0 < p
      · rw [if_pos hp]
        rw [List.length_reverse]
        simp [List.length_take]
      · rw [if_neg hp]
        simp
    constructor
    · by_cases hn : 0 < n
      · rw [if_pos hn]
        simp [List.length_take]
      · rw [if_neg hn]
        simp
    constructor
    · intro x hx
      by_cases hp : 0 < p
      · rw [if_pos hp] at hx
        rw [List.mem_reverse] at hx
        have hx2 := (List.mem_insertionSort createdGe).mp (List.mem_of_mem_take hx)
        exact mem_context_filter s lid (fun c => c < t.file_created_at) x hx2
      · rw [if_neg hp] at hx
        simp at hx
    constructor
    · intro x hx
      by_cases hn : 0 < n
      · rw [if_pos hn] at hx
        have hx2 := (List.mem_insertionSort createdLe).mp (List.mem_of_mem_take hx)
        exact mem_context_filter s lid (fun c => t.file_created_at < c) x hx2
      · rw [if_neg hn] at hx
        simp at hx
    constructor
    · by_cases hp : 0 < p
      · rw [if_pos hp]
        rw [List.Sorted, List.pairwise_reverse]
        exact ((List.sorted_insertionSort createdGe _).sublist
          (List.take_sublist p _))
      · rw [if_neg hp]
        exact List.sorted_nil
    · by_cases hn : 0 < n
      · rw [if_pos hn]
        exact ((List.sorted_insertionSort createdLe _).sublist
          (List.take_sublist n _))
      · rw [if_neg hn]
        exact List.sorted_nil

/-- The spec's concrete context example: creation times 10 to 50, anchor at
30, two previous and one next entity, each ascending. -/
theorem c7_get_entity_context_example :
    get_entity_context ctxState 1 3 2 1 =
      ([entW 1 1 10, entW 2 1 20], [entW 4 1 40]) := by rfl

/-- Witness for C7 at the five-entity store with anchor 3. -/
theorem c7_get_entity_context_spec_witness :
    ctxState.entities.find? (fun e => e.id == 3 && e.library_id == 1) =
      some (entW 3 1 30) ∧
    (get_entity_context ctxState 1 3 2 1).1.length ≤ 2 ∧
    (get_entity_context ctxState 1 3 2 1).2.length ≤ 1 :=
  ⟨by rfl,
    ((c7_get_entity_context_spec ctxState 1 3 2 1).2 (entW 3 1 30) (by rfl)).1,
    ((c7_get_entity_context_spec ctxState 1 3 2 1).2 (entW 3 1 30) (by rfl)).2.1⟩

/-- The WHERE clause of list_entities spelt out as propositions: image file
type; membership in the library set when a non-empty one is supplied; and,
when both bounds are supplied, the decimal rendering of the creation time
lying lexicographically between the renderings of the bounds. -/
theorem listFilter_eq_true_iff (lids : Option (List Nat)) (start stop : Option Nat)
    (x : Entity) :
    listFilter lids start stop x = true ↔
      (x.file_type_group = "image" ∧
       (∀ ids, lids = some ids → ids ≠ [] → x.library_id ∈ ids) ∧
       ∀ a b, start = some a → stop = some b →
         timeStrBetween x.file_created_at a b = true) := by
  unfold listFilter
  rw [Bool.and_eq_true, Bool.and_eq_true, beq_iff_eq]
  constructor
  · rintro ⟨⟨himg, hlib⟩, htime⟩
    refine ⟨himg, ?_, ?_⟩
    · intro ids hids hne
      rw [hids] at hlib
      have hlib2 : (if ids.isEmpty = true then true
          else ids.contains x.library_id) = true := hlib
      rw [if_neg (by simp [List.isEmpty_iff, hne])] at hlib2
      exact List.elem_iff.mp hlib2
    · intro a b ha hb
      rw [ha, hb] at htime
      exact htime
  · rintro ⟨himg, hlib, htime⟩
    refine ⟨⟨himg, ?_⟩, ?_⟩
    · cases hids : lids with
      | none => rfl
      | some ids =>
          show (if ids.isEmpty = true then true
            else ids.contains x.library_id) = true
          by_cases hne : ids.isEmpty = true
          · rw [if_pos hne]
          · rw [if_neg hne]
            exact List.elem_iff.mpr
              (hlib ids hids (by simpa [List.isEmpty_iff] using hne))
    · cases hst : start with
      | none => rfl
      | some a =>
          cases hsp : stop with
          | none => rfl
          | some b => exact htime a b hst hsp

/-- C8 (amended): list_entities returns only image-group entities, in
creation-time descending order, truncated to the limit; shrinking the limit
only truncates; and every image entity meeting the library restriction and
the textual time-window restriction appears when the limit is large enough.
The time window is evaluated by SQLite as a BETWEEN over strings, not
numbers: strftime renders the creation epoch as a decimal string and it is
compared lexicographically with str(start) and str(stop). -/
theorem c8_list_entities_spec (s : DBState) (limit : Nat)
    (lids : Option (List Nat)) (start stop : Option Nat) :
    (list_entities s limit lids start stop).length ≤ limit ∧
    (list_entities s limit lids start stop).Sorted createdGe ∧
    list_entities s limit lids start stop =
      (list_entities s s.entities.length lids start stop).take limit ∧
    (∀ x ∈ list_entities s limit lids start stop,
      x ∈ s.entities ∧ x.file_type_group = "image" ∧
        (∀ ids, lids = some ids → ids ≠ [] → x.library_id ∈ ids) ∧
        ∀ a b, start = some a → stop = some b →
          timeStrBetween x.file_created_at a b = true) ∧
    ∀ x ∈ s.entities, x.file_type_group = "image" →
      (∀ ids, lids = some ids → ids ≠ [] → x.library_id ∈ ids) →
      (∀ a b, start = some a → stop = some b →
        timeStrBetween x.file_created_at a b = true) →
      x ∈ list_entities s s.entities.length lids start stop := by
  have hfull : ((s.entities.filter (listFilter lids start stop)).insertionSort
      createdGe).take s.entities.length =
      (s.entities.filter (listFilter lids start stop)).insertionSort createdGe := by
    apply List.take_of_length_le
    rw [List.length_insertionSort]
    exact List.length_filter_le _ _
  refine ⟨?_, ?_, ?_, ?_, ?_⟩
  · unfold list_entities
    simp [List.length_take]
  · unfold list_entities
    exact (List.sorted_insertionSort createdGe _).sublist (List.take_sublist _ _)
  · unfold list_entities
    rw [hfull]
  · intro x hx
    unfold list_entities at hx
    have hx2 := (List.mem_insertionSort createdGe).mp (List.mem_of_mem_take hx)
    rcases List.mem_filter.mp hx2 with ⟨hmem, hcond⟩
    rcases (listFilter_eq_true_iff lids start stop x).mp hcond with ⟨h1, h2, h3⟩
    exact ⟨hmem, h1, h2, h3⟩
  · intro x hmem himg hlib htime
    unfold list_entities
    rw [hfull, List.mem_insertionSort]
    exact List.mem_filter.mpr
      ⟨hmem, (listFilter_eq_true_iff lids start stop x).mpr ⟨himg, hlib, htime⟩⟩

/-- Counterexample for C8 as stated: the store holds one image entity with
creation epoch 100, numerically inside the inclusive range 99 to 100, yet
list_entities with that range returns nothing, because the comparison is the
lexicographic string comparison 99 <= 100 <= 100, and the string 100 sorts
before the string 99. -/
theorem c8_inclusive_epoch_bounds_counterexample :
    (entW 1 1 100) ∈ lexState.entities ∧
    (entW 1 1 100).file_type_group = "image" ∧
    99 ≤ (entW 1 1 100).file_created_at ∧
    (entW 1 1 100).file_created_at ≤ 100 ∧
    list_entities lexState 200 none (some 99) (some 100) = [] := by
  refine ⟨by simp [lexState], by decide, by decide, by decide, by rfl⟩

/-- Witness for C8 at the one-entity store with the textual window 100 to
100, which does admit the entity. -/
theorem c8_list_entities_spec_witness :
    (entW 1 1 100) ∈ lexState.entities ∧
    (entW 1 1 100).file_type_group = "image" ∧
    (entW 1 1 100) ∈ list_entities lexState 1 none (some 100) (some 100) :=
  ⟨by simp [lexState], by decide,
    (c8_list_entities_spec lexState 1 none (some 100) (some 100)).2.2.2.2
      (entW 1 1 100) (by simp [lexState]) (by decide)
      (fun ids h => absurd h (by simp))
      (fun a b ha hb => by
        injection ha with ha1
        injection hb with hb1
        rw [← ha1, ← hb1]
        decide)⟩

/-- Rounding to 5 decimals of a real whose hundred-thousand-fold is an
integer leaves exactly that integer over 100000. -/
theorem round5_of_int (z : ℤ) (x : ℝ) (h : x * 100000 = (z : ℝ)) :
    round5 x = (z : ℝ) / 100000 := by
  unfold round5
  rw [h, round_intCast]

/-- numpy's row-wise norm-and-divide pipeline in generate_embeddings equals
the spec's Vector Normalizer applied to every row. -/
theorem divRows_norms_eq_map_normalize (rows : List (List ℝ)) :
    divRows rows (fixZeroNorms (l2norms rows)) = rows.map normalizeVec := by
  induction rows with
  | nil => rfl
  | cons v vs ih =>
      unfold divRows fixZeroNorms l2norms at *
      simp only [List.map_cons, List.zip_cons_cons]
      rw [ih]
      rfl

/-- C2 (amended): on the local path every returned vector is the raw encoder
output L2-normalized (zero norm treated as norm 1) and then rounded to five
decimals; on the remote path a successful response's vectors are only
rounded to five decimals - the normalizer is not applied to remote
results. -/
theorem c2_normalize_round_paths :
    (∀ (cfg : EmbeddingSettings) (encode : List String → List (List ℝ))
        (remote : List String → RemoteOutcome) (texts : List String),
        cfg.use_local = true → texts ≠ [] →
        get_embeddings cfg encode remote texts =
          Except.ok ((encode texts).map specNormalizeRound)) ∧
    ∀ (cfg : EmbeddingSettings) (encode : List String → List (List ℝ))
        (remote : List String → RemoteOutcome) (texts : List String)
        (status : Nat) (body : List (List ℝ)),
      cfg.use_local = false →
      remote texts = RemoteOutcome.response status body →
      200 ≤ status → status ≤ 299 →
      get_embeddings cfg encode remote texts =
        Except.ok (body.map (fun v => v.map round5)) := by
  constructor
  · intro cfg encode remote texts hlocal hne
    unfold get_embeddings generate_embeddings
    rw [hlocal]
    rw [if_pos rfl, if_neg (by simpa [List.isEmpty_iff] using hne)]
    rw [divRows_norms_eq_map_normalize]
    show Except.ok (((encode texts).map normalizeVec).map
      (fun v => v.map round5)) = _
    rw [List.map_map]
    rfl
  · intro cfg encode remote texts status body hremoteCfg hresp h1 h2
    have hrem : get_remote_embeddings remote texts = Except.ok body := by
      unfold get_remote_embeddings
      rw [hresp]
      exact if_pos ⟨h1, h2⟩
    unfold get_embeddings
    rw [hremoteCfg, hrem]
    rfl

/-- Witness for C2: local path on a two-coordinate raw vector. -/
theorem c2_normalize_round_paths_witness :
    ({ use_local := true, modelName := "m", endpoint := "e" } :
        EmbeddingSettings).use_local = true ∧
    (["t"] : List String) ≠ [] ∧
    get_embeddings { use_local := true, modelName := "m", endpoint := "e" }
        (fun _ => [[3, 4]]) (fun _ => RemoteOutcome.transportError) ["t"] =
      Except.ok (([[(3 : ℝ), 4]] : List (List ℝ)).map specNormalizeRound) :=
  ⟨rfl, by simp,
    c2_normalize_round_paths.1
      { use_local := true, modelName := "m", endpoint := "e" }
      (fun _ => [[3, 4]]) (fun _ => RemoteOutcome.transportError) ["t"] rfl
      (by simp)⟩

/-- Counterexample for C2 as stated: with the remote path selected and the
endpoint answering 200 with the single raw vector (3, 4), get_embeddings
returns (3, 4) itself (rounded only), while normalize-then-round of that raw
vector is (3/5, 4/5): the remote path skips the normalizer. -/
theorem c2_remote_path_not_normalized_counterexample :
    get_embeddings { use_local := false, modelName := "m", endpoint := "e" }
        (fun _ => []) (fun _ => RemoteOutcome.response 200 [[3, 4]]) ["a"] =
      Except.ok [[3, 4]] ∧
    specNormalizeRound [3, 4] = [3 / 5, 4 / 5] ∧
    ([(3 : ℝ), 4] : List ℝ) ≠ [3 / 5, 4 / 5] := by
  have h3 : round5 (3 : ℝ) = 3 := by
    rw [round5_of_int 300000 3 (by norm_num)]
    norm_num
  have h4 : round5 (4 : ℝ) = 4 := by
    rw [round5_of_int 400000 4 (by norm_num)]
    norm_num
  refine ⟨?_, ?_, ?_⟩
  · have hrem : get_remote_embeddings
        (fun _ => RemoteOutcome.response 200 [[3, 4]]) ["a"] =
        Except.ok [[3, 4]] := by
      unfold get_remote_embeddings
      exact if_pos (by norm_num)
    unfold get_embeddings
    rw [if_neg (by simp), hrem]
    show Except.ok (([[(3 : ℝ), 4]] : List (List ℝ)).map
      (fun v => v.map round5)) = _
    simp [h3, h4]
  · have hsum : sumSq [3, 4] = 25 := by
      unfold sumSq
      norm_num
    have hsqrt : Real.sqrt (sumSq [3, 4]) = 5 := by
      rw [hsum, show (25 : ℝ) = 5 ^ 2 by norm_num,
        Real.sqrt_sq (by norm_num : (0 : ℝ) ≤ 5)]
    have hnorm : normalizeVec [3, 4] = [(3 : ℝ) / 5, 4 / 5] := by
      unfold normalizeVec
      rw [hsqrt]
      norm_num
    unfold specNormalizeRound
    rw [hnorm]
    simp only [List.map_cons, List.map_nil]
    rw [round5_of_int 60000 (3 / 5) (by norm_num),
      round5_of_int 80000 (4 / 5) (by norm_num)]
    norm_num
  · intro h
    rw [List.cons_eq_cons] at h
    have := h.1
    norm_num at this
